import Mathlib

/-!
Verification development for `crewai/agents/crew_agent_executor.py`
(class `CrewAgentExecutor`).

Python strings are modelled as `List Char` (a Python `str` is a sequence of
code points).  External collaborators (the LLM client, the answer parser,
the tool-usage parser, the i18n catalog, the forced-answer and rate-limit
predicates, the context-limit detector) live outside the translated file
and are modelled as oracle fields of an `Env` record; the executor's own
logic is translated line by line from the source.
-/

namespace Crew

/-! ## String helpers (models of the Python `str` methods used by the source) -/

/-- Modelled from the spec: Python `str.casefold`, used by the source only for
case-insensitive tool-name comparison; modelled as per-character lowercasing. -/
def casefold (s : List Char) : List Char := s.map Char.toLower

/-- Python whitespace characters recognised by `str.strip`. -/
def isPySpace (c : Char) : Bool :=
  c = ' ' || c = '\t' || c = '\n' || c = '\x0b' || c = '\x0c' || c = '\r'

/-- Modelled from the spec: Python `str.strip` (drop leading and trailing
whitespace). -/
def strip (s : List Char) : List Char :=
  ((s.dropWhile isPySpace).reverse.dropWhile isPySpace).reverse

/-- Python `str.replace("_", " ")`: single-character replacement is a map. -/
def replaceUnderscores (s : List Char) : List Char :=
  s.map fun c => if c = '_' then ' ' else c

/-- Whether `pat` occurs at the head of `s`. -/
def startsWithCL : List Char → List Char → Bool
  | [], _ => true
  | _ :: _, [] => false
  | p :: ps, c :: cs => p = c && startsWithCL ps cs

/-- Python `pat in s` (substring containment). -/
def containsSub (pat : List Char) : List Char → Bool
  | [] => startsWithCL pat []
  | c :: rest => startsWithCL pat (c :: rest) || containsSub pat rest

/-- Python `s.split(mark)[0]` for a non-empty marker: the text before the first
occurrence of `mark` (the whole of `s` when `mark` does not occur). -/
def takeUntilMarker (mark : List Char) : List Char → List Char
  | [] => []
  | c :: rest =>
    if mark ≠ [] && startsWithCL mark (c :: rest) then []
    else c :: takeUntilMarker mark rest

/-- Fuelled worker for `replaceAllSub`; the fuel bounds the scan and equals the
input length at the top-level call, which suffices because each step consumes
at least one character. -/
def replaceAllAux (pat repl : List Char) : Nat → List Char → List Char
  | 0, s => s
  | fuel + 1, s =>
    match s with
    | [] => []
    | c :: rest =>
      if pat ≠ [] && startsWithCL pat (c :: rest) then
        repl ++ replaceAllAux pat repl fuel ((c :: rest).drop pat.length)
      else
        c :: replaceAllAux pat repl fuel rest

/-- Python `s.replace(pat, repl)` for a non-empty pattern: left-to-right,
non-overlapping replacement. -/
def replaceAllSub (pat repl s : List Char) : List Char :=
  replaceAllAux pat repl s.length s

/-! ## Data model (from `crewai.agents.parser` as consumed by the executor) -/

/-- One conversation message, as produced by `_format_msg`:
`{"role": role, "content": prompt}`. -/
structure Message where
  role : List Char
  content : List Char
deriving DecidableEq, Repr

/-- Parsed model intent to call a tool (`AgentAction`): the executor reads and
mutates `text` and `result`; `toolName`/`toolInput` are carried by the parser. -/
structure AgentAction where
  text : List Char
  toolName : List Char
  toolInput : List Char
  result : Option (List Char)
deriving DecidableEq, Repr

/-- Parsed model intent to finish (`AgentFinish`): `{output, text}`. -/
structure AgentFinish where
  output : List Char
  text : List Char
deriving DecidableEq, Repr

/-- The parser's sole return type: a tagged union over action and finish. -/
inductive FormattedAnswer where
  | action (a : AgentAction)
  | finish (f : AgentFinish)
deriving DecidableEq, Repr

/-- The structured tool call produced by the external tool-usage parser; the
executor only consults its `tool_name`. -/
structure ToolCalling where
  toolName : List Char
deriving DecidableEq, Repr

/-- Role strings used by `_format_msg` and the loop. -/
def sysRole : List Char := "system".data

/-- Default role of `_format_msg`. -/
def userRole : List Char := "user".data

/-- Role attached to loop-produced turns and parser-error feedback. -/
def assistantRole : List Char := "assistant".data

/-- The message constructor `_format_msg(prompt, role)`. -/
def formatMsg (role content : List Char) : Message := ⟨role, content⟩

/-- Mutable executor state threaded through the loop: the conversation, the
iteration counter and the forced-answer flag are the fields the source mutates
on `self`; `calls` and `turns` are bookkeeping indices that feed the LLM and
rate-limit oracles (they replace Python's implicit call ordering). -/
structure ExecState where
  messages : List Message
  iterations : Nat
  haveForcedAnswer : Bool
  calls : Nat
  turns : Nat
deriving DecidableEq, Repr

/-- External collaborators and construction-time configuration of
`CrewAgentExecutor`.  Function-valued fields are oracles for the external
interfaces listed in the spec; `List Char`-valued i18n fields are the
localized catalog entries the executor formats. -/
structure Env where
  promptSystem : Option (List Char)
  promptUser : List Char
  promptPrompt : List Char
  useStopWords : Bool
  rpmGate : Option (Nat → Bool)
  llmAnswer : Nat → Except (List Char) (List Char)
  parse : List Char → Except (List Char) FormattedAnswer
  finalAnswerErrMark : List Char
  toolParse : List Char → Except (List Char) ToolCalling
  toolUse : ToolCalling → List Char → List Char
  toolNames : List (List Char)
  hasStepCallback : Bool
  shouldForce : Nat → Bool
  isContextLimit : List Char → Bool
  respectContextWindow : Bool
  summarize : List Char → List Char
  errForceFinalAnswerError : List Char → List Char
  errForceFinalAnswer : List Char
  errWrongToolName : List Char → List Char → List Char
  errSummary : List Char → List Char

/-! ## Context-overflow recovery (`_summarize_messages`, `_handle_context_length`) -/

/-- Fuelled worker for `chunksOf`; at the top-level call the fuel is the content
length, which suffices because every step consumes at least one character.
This models the Python loop `for i in range(0, len(content), 5000):
groups.append(content[i : i + 5000])`. -/
def chunksOfAux : Nat → List Char → List (List Char)
  | _, [] => []
  | 0, _ :: _ => []
  | fuel + 1, c :: rest =>
    ((c :: rest).take 5000) :: chunksOfAux fuel ((c :: rest).drop 5000)

/-- The 5000-character chunking `_summarize_messages` applies to one message's
content. -/
def chunksOf (s : List Char) : List (List Char) :=
  chunksOfAux s.length s

/-- The `messages_groups` list built by `_summarize_messages`: every message's
chunks, in message order. -/
def messagesGroups (msgs : List Message) : List (List Char) :=
  (msgs.map fun m => chunksOf m.content).flatten

/-- Number of summarization model calls `_summarize_messages` issues: the
source performs exactly one `llm.call` per entry of `messages_groups`. -/
def summarizeCallCount (msgs : List Message) : Nat :=
  (messagesGroups msgs).length

/-- Separator of `" ".join(...)`. -/
def spaceSep : List Char := " ".data

/-- The whole of `_summarize_messages`: chunk, summarize each chunk through the
LLM oracle, join the summaries with single spaces, and replace the entire
conversation by one message wrapping the merged summary. -/
def summarizeMessages (env : Env) (st : ExecState) : ExecState :=
  let groups := messagesGroups st.messages
  let summarizedContents := groups.map env.summarize
  let mergedSummary := List.intercalate spaceSep summarizedContents
  { st with messages := [formatMsg userRole (env.errSummary mergedSummary)] }

/-- The `SystemExit` message raised by `_handle_context_length` when the user
opted not to summarize. -/
def contextExitMessage : List Char :=
  "Context length exceeded and user opted not to summarize. Consider using smaller text or RAG tools from crewai_tools.".data

/-- The whole of `_handle_context_length`: summarize when
`respect_context_window` is set, otherwise raise `SystemExit` (modelled as the
`error` branch; `SystemExit` derives `BaseException`, not `Exception`, so the
loop's `except Exception` cannot catch it). -/
def handleContextLength (env : Env) (st : ExecState) : Except (List Char) ExecState :=
  if env.respectContextWindow then Except.ok (summarizeMessages env st)
  else Except.error contextExitMessage

/-! ## Tool dispatcher (`_use_tool`) -/

/-- Separator of the `", ".join(...)` in the wrong-tool-name message. -/
def commaSep : List Char := ", ".data

/-- The tool-name resolution test of `_use_tool`, translated from
`tool_calling.tool_name.casefold().strip() in [name.casefold().strip() ...]
or tool_calling.tool_name.casefold().replace("_", " ") in
[name.casefold().strip() ...]`. -/
def toolNameMatches (requested : List Char) (names : List (List Char)) : Bool :=
  decide (strip (casefold requested) ∈ names.map fun n => strip (casefold n)) ||
  decide (replaceUnderscores (casefold requested) ∈ names.map fun n => strip (casefold n))

/-- The whole of `_use_tool`: parse the action text through the external
tool-usage parser; a usage-error value becomes the result directly; otherwise
resolve the requested name and either invoke the tool or return the localized
wrong-tool-name message enumerating the case-folded tool names. -/
def useTool (env : Env) (a : AgentAction) : List Char :=
  match env.toolParse a.text with
  | Except.error m => m
  | Except.ok toolCalling =>
    if toolNameMatches toolCalling.toolName env.toolNames then
      env.toolUse toolCalling a.text
    else
      env.errWrongToolName toolCalling.toolName
        (List.intercalate commaSep (env.toolNames.map casefold))

/-! ## Execution loop (`_invoke_loop`) -/

/-- The literal `"\nObservation: "` the loop splices before the tool result. -/
def obsMarkerSep : List Char := "\nObservation: ".data

/-- The `"Observation:"` marker used by the repairable-parse truncation. -/
def obsMarker : List Char := "Observation:".data

/-- The loop's mutation of a dispatched action (source lines
`formatted_answer.text += f"\nObservation: {action_result}"` and, only under
`if self.step_callback:`, `formatted_answer.result = action_result`). -/
def attachObservation (env : Env) (a : AgentAction) (res : List Char) : AgentAction :=
  let a1 := { a with text := a.text ++ obsMarkerSep ++ res }
  if env.hasStepCallback then { a1 with result := some res } else a1

/-- The first-force mutation: append the localized forced-answer notice to the
action text (`formatted_answer.text += f'\n{...("force_final_answer")}'`). -/
def withNotice (env : Env) (a : AgentAction) : AgentAction :=
  { a with text := a.text ++ '\n' :: env.errForceFinalAnswer }

/-- Result of one body of the `while` loop, before the surrounding
`try/except` acts: a direct `return` from inside the loop, a normal
continuation with the new `formatted_answer`, or an escaped exception
(`OutputParserException` separately from any other `Exception`). -/
inductive StepRes where
  | finished (f : AgentFinish) (st : ExecState)
  | next (fa : Option FormattedAnswer) (st : ExecState)
  | parserErr (e : List Char) (st : ExecState)
  | otherErr (e : List Char) (st : ExecState)
deriving Repr

/-- The state carried by a step result. -/
def stepState : StepRes → ExecState
  | StepRes.finished _ st => st
  | StepRes.next _ st => st
  | StepRes.parserErr _ st => st
  | StepRes.otherErr _ st => st

/-- The `isinstance(formatted_answer, AgentAction)` branch of the loop body:
dispatch the tool, mutate the action, evaluate the forced-answer policy, and
append the assistant turn (skipped by the early terminal return). -/
def processAction (env : Env) (st : ExecState) (a : AgentAction) : StepRes :=
  let res := useTool env a
  let a1 := attachObservation env a res
  if env.shouldForce st.iterations then
    if st.haveForcedAnswer then
      StepRes.finished ⟨env.errForceFinalAnswerError a1.text, a1.text⟩ st
    else
      StepRes.next (some (FormattedAnswer.action (withNotice env a1)))
        { st with haveForcedAnswer := true,
                  messages := st.messages ++ [formatMsg assistantRole (withNotice env a1).text] }
  else
    StepRes.next (some (FormattedAnswer.action a1))
      { st with messages := st.messages ++ [formatMsg assistantRole a1.text] }

/-- The `if not self.use_stop_words:` pre-parse repair: when a trial parse
fails with the final-answer-plus-parsable-action error, truncate the raw text
at the first `"Observation:"` marker and strip it; otherwise keep the raw
text. -/
def repairAnswer (env : Env) (answer0 : List Char) : List Char :=
  if env.useStopWords then answer0
  else
    match env.parse answer0 with
    | Except.error e =>
      if containsSub env.finalAnswerErrMark e then
        strip (takeUntilMarker obsMarker answer0)
      else answer0
    | Except.ok _ => answer0

/-- One ungated body of the `while` loop: call the LLM, optionally repair the
known final-answer-plus-action malformation, bump the iteration counter, parse,
and handle an action via `processAction`. -/
def oneTurn (env : Env) (st : ExecState) : StepRes :=
  match env.llmAnswer st.calls with
  | Except.error e => StepRes.otherErr e { st with calls := st.calls + 1 }
  | Except.ok answer0 =>
    let st2 := { st with calls := st.calls + 1, iterations := st.iterations + 1 }
    match env.parse (repairAnswer env answer0) with
    | Except.error e => StepRes.parserErr e st2
    | Except.ok (FormattedAnswer.finish f) =>
      StepRes.next (some (FormattedAnswer.finish f)) st2
    | Except.ok (FormattedAnswer.action a) => processAction env st2 a

/-- The rate-limit gate `not self.request_within_rpm_limit or
self.request_within_rpm_limit()`. -/
def gateAllows (env : Env) (st : ExecState) : Bool :=
  match env.rpmGate with
  | none => true
  | some g => g st.turns

/-- Outcome of `_invoke_loop`: a normal `return` (carrying the function's
return value, which Python does not constrain to be a finish), a propagating
`SystemExit`, a re-raised exception, or exhaustion of the step budget
(modelling divergence of the unbounded source loop). -/
inductive LoopRes where
  | ret (fa : Option FormattedAnswer) (st : ExecState)
  | exit (m : List Char) (st : ExecState)
  | raised (e : List Char) (st : ExecState)
  | fuelOut (st : ExecState)
deriving Repr

/-- The state carried by a loop outcome. -/
def loopState : LoopRes → ExecState
  | LoopRes.ret _ st => st
  | LoopRes.exit _ st => st
  | LoopRes.raised _ st => st
  | LoopRes.fuelOut st => st

/-- The returned value of a normally-returning loop outcome. -/
def retValue : LoopRes → Option (Option FormattedAnswer)
  | LoopRes.ret fa _ => some fa
  | _ => none

/-- The `except OutputParserException` handler's conversation update:
`self.messages.append({"role": "assistant", "content": e.error})`. -/
def appendParserError (st : ExecState) (e : List Char) : ExecState :=
  { st with messages := st.messages ++ [formatMsg assistantRole e] }

/-- The fall-through after an `except` handler finishes: Python DISCARDS the
recursive `self._invoke_loop(...)` return value and executes
`return formatted_answer` with the handler-frame value `fa`; an exception or
exit escaping the recursive call propagates instead. -/
def retKeep (fa : Option FormattedAnswer) : LoopRes → LoopRes
  | LoopRes.ret _ st2 => LoopRes.ret fa st2
  | r => r

/-- The `try/except` continuation of `_invoke_loop` applied to one loop-body
outcome: a direct in-loop `return` surfaces; a normal continuation re-enters
the `while`; `except OutputParserException` appends the error text and
re-enters recursively (result discarded, per `retKeep`); `except Exception`
re-enters after `_handle_context_length` for a context-limit error
(`SystemExit` from the handler propagates uncaught) and re-raises anything
else. -/
def afterTurn (env : Env) (recurse : Option FormattedAnswer → ExecState → LoopRes)
    (fa : Option FormattedAnswer) : StepRes → LoopRes
  | StepRes.finished f st1 => LoopRes.ret (some (FormattedAnswer.finish f)) st1
  | StepRes.next fa1 st1 => recurse fa1 st1
  | StepRes.parserErr e st1 => retKeep fa (recurse fa (appendParserError st1 e))
  | StepRes.otherErr e st1 =>
    if env.isContextLimit e then
      match handleContextLength env st1 with
      | Except.error m => LoopRes.exit m st1
      | Except.ok st2 => retKeep fa (recurse fa st2)
    else LoopRes.raised e st1

/-- The whole of `_invoke_loop(formatted_answer)`: the `while` runs until
`formatted_answer` is a finish; each un-gated cycle runs `oneTurn` under the
`afterTurn` exception-handling continuation. -/
def invokeLoop (env : Env) : Nat → Option FormattedAnswer → ExecState → LoopRes
  | 0, _, st => LoopRes.fuelOut st
  | fuel + 1, fa, st =>
    match fa with
    | some (FormattedAnswer.finish f) => LoopRes.ret (some (FormattedAnswer.finish f)) st
    | _ =>
      if gateAllows env st then
        afterTurn env (invokeLoop env fuel) fa (oneTurn env { st with turns := st.turns + 1 })
      else invokeLoop env fuel fa { st with turns := st.turns + 1 }

/-! ## Prompt seeding and feedback append (`invoke`) -/

/-- The input variables `invoke` substitutes into the prompt templates. -/
structure Inputs where
  inputVar : List Char
  toolNamesVar : List Char
  toolsVar : List Char
deriving Repr

/-- The whole of `_format_prompt`: replace the three placeholders. -/
def formatPrompt (prompt : List Char) (inp : Inputs) : List Char :=
  let p1 := replaceAllSub "{input}".data inp.inputVar prompt
  let p2 := replaceAllSub "{tool_names}".data inp.toolNamesVar p1
  replaceAllSub "{tools}".data inp.toolsVar p2

/-- The prompt-seeding prelude of `invoke` (lines 73-81): append a
system/user pair when the prompt configuration has a `"system"` key, else a
single combined user prompt. -/
def seedMessages (env : Env) (inp : Inputs) (st : ExecState) : ExecState :=
  match env.promptSystem with
  | some sys =>
    { st with messages := st.messages ++
        [formatMsg sysRole (formatPrompt sys inp),
         formatMsg userRole (formatPrompt env.promptUser inp)] }
  | none =>
    { st with messages := st.messages ++
        [formatMsg userRole (formatPrompt env.promptPrompt inp)] }

/-- The feedback append of `invoke` (line 92):
`self.messages.append(self._format_msg(f"Feedback: {human_feedback}"))`. -/
def appendFeedback (st : ExecState) (humanFeedback : List Char) : ExecState :=
  { st with messages := st.messages ++ [formatMsg userRole ("Feedback: ".data ++ humanFeedback)] }

/-! ## Training-record persistence (`_handle_crew_training_output`) -/

/-- A Python value used as a dict subscript in the training handler: the crew's
`_train_iteration` is either an `int` or some other (wrong) type, modelled by
a string key. -/
inductive PyKey where
  | kint (n : Int)
  | kstr (s : List Char)
deriving DecidableEq, Repr

/-- Configuration and loaded store contents seen by one call of
`_handle_crew_training_output`.  `loaded` is the mapping returned by
`CrewTrainingHandler(TRAINING_DATA_FILE).load()`: agent identifier to the
integer iteration keys present in that agent's per-iteration records (the
record bodies do not influence control flow).  `trainIteration = none` models
a crew object without the `_train_iteration` attribute. -/
structure TrainEnv where
  loaded : List (List Char × List Int)
  crewPresent : Bool
  trainIteration : Option PyKey
  askForHumanInput : Bool
  agentId : List Char
deriving Repr

/-- Observable persistence effects of the handler, in program order. -/
inductive TrainEvent where
  | saveImproved
  | appendRecord
  | logError
deriving DecidableEq, Repr

/-- Python `dict.get` on the loaded training mapping. -/
def lookupAgent (data : List (List Char × List Int)) (k : List Char) : Option (List Int) :=
  match data with
  | [] => none
  | (k1, v) :: rest => if k1 = k then some v else lookupAgent rest k

/-- The exception raised by subscripting the int-keyed per-iteration dict with
a missing or wrongly-typed key. -/
def keyErrorMsg : List Char := "KeyError".data

/-- The whole of `_handle_crew_training_output`.  First block (revision
round): when the loaded store is truthy and no human input is pending, a
truthy per-agent entry is updated at key `crew._train_iteration` WITHOUT any
type or presence check — `training_data[agent_id][self.crew._train_iteration]`
raises for a wrong-typed or absent key; only a missing crew/attribute is
logged.  Second block (initial feedback round): guarded by an
`isinstance(train_iteration, int)` check, all failures logged. -/
def handleCrewTrainingOutput (env : TrainEnv) (humanFeedback : Option (List Char)) :
    Except (List Char) (List TrainEvent) := do
  let ev1 ←
    if env.loaded ≠ [] && !env.askForHumanInput then
      match lookupAgent env.loaded env.agentId with
      | some iters =>
        if iters ≠ [] then
          if env.crewPresent && env.trainIteration.isSome then
            match env.trainIteration with
            | some (PyKey.kint n) =>
              if iters.contains n then pure [TrainEvent.saveImproved]
              else Except.error keyErrorMsg
            | some (PyKey.kstr _) => Except.error keyErrorMsg
            | none => pure [TrainEvent.logError]
          else pure [TrainEvent.logError]
        else pure []
      | none => pure []
    else pure []
  let ev2 ←
    if env.askForHumanInput && humanFeedback.isSome then
      if env.crewPresent && env.trainIteration.isSome then
        match env.trainIteration with
        | some (PyKey.kint _) => pure [TrainEvent.appendRecord]
        | _ => pure [TrainEvent.logError]
      else pure [TrainEvent.logError]
    else pure []
  pure (ev1 ++ ev2)

/-! ## Concrete environments for witnesses and counterexamples -/

/-- A minimal concrete environment; individual scenarios override the oracle
fields they exercise. -/
def baseEnv : Env where
  promptSystem := none
  promptUser := []
  promptPrompt := []
  useStopWords := true
  rpmGate := none
  llmAnswer := fun _ => Except.ok []
  parse := fun _ => Except.error ['e']
  finalAnswerErrMark := "final answer and parsable action".data
  toolParse := fun _ => Except.error ['m']
  toolUse := fun _ _ => ['r']
  toolNames := []
  hasStepCallback := false
  shouldForce := fun _ => false
  isContextLimit := fun _ => false
  respectContextWindow := false
  summarize := fun s => s
  errForceFinalAnswerError := fun t => 'E' :: t
  errForceFinalAnswer := ['F']
  errWrongToolName := fun t ts => 'W' :: (t ++ ts)
  errSummary := fun s => 'S' :: s

/-- The empty executor state at construction time. -/
def initState : ExecState :=
  { messages := [], iterations := 0, haveForcedAnswer := false, calls := 0, turns := 0 }

/-! ## Lemmas about the chunking of `_summarize_messages` -/

theorem chunksOfAux_flatten : ∀ (fuel : Nat) (s : List Char), s.length ≤ fuel →
    (chunksOfAux fuel s).flatten = s := by
  intro fuel
  induction fuel with
  | zero =>
    intro s h
    have hs : s = [] := List.eq_nil_of_length_eq_zero (Nat.le_zero.mp h)
    subst hs
    simp [chunksOfAux]
  | succ n ih =>
    intro s h
    match s with
    | [] => simp [chunksOfAux]
    | c :: rest =>
      simp only [chunksOfAux, List.flatten_cons]
      rw [ih ((c :: rest).drop 5000)
        (by simp only [List.length_drop, List.length_cons]
            simp only [List.length_cons] at h
            omega)]
      exact List.take_append_drop 5000 (c :: rest)

theorem chunksOf_flatten (s : List Char) : (chunksOf s).flatten = s :=
  chunksOfAux_flatten s.length s (Nat.le_refl _)

theorem chunksOfAux_length : ∀ (fuel : Nat) (s : List Char), s.length ≤ fuel →
    (chunksOfAux fuel s).length = (s.length + 4999) / 5000 := by
  intro fuel
  induction fuel with
  | zero =>
    intro s h
    have hs : s = [] := List.eq_nil_of_length_eq_zero (Nat.le_zero.mp h)
    subst hs
    simp [chunksOfAux]
  | succ n ih =>
    intro s h
    match s with
    | [] => simp [chunksOfAux]
    | c :: rest =>
      simp only [chunksOfAux, List.length_cons]
      rw [ih ((c :: rest).drop 5000)
        (by simp only [List.length_drop, List.length_cons]
            simp only [List.length_cons] at h
            omega)]
      simp only [List.length_drop, List.length_cons]
      omega

theorem chunksOf_length (s : List Char) :
    (chunksOf s).length = (s.length + 4999) / 5000 :=
  chunksOfAux_length s.length s (Nat.le_refl _)

theorem chunksOfAux_mem_length : ∀ (fuel : Nat) (s c : List Char),
    c ∈ chunksOfAux fuel s → c.length ≤ 5000 := by
  intro fuel
  induction fuel with
  | zero =>
    intro s c hc
    match s with
    | [] => simp [chunksOfAux] at hc
    | _ :: _ => simp [chunksOfAux] at hc
  | succ n ih =>
    intro s c hc
    match s with
    | [] => simp [chunksOfAux] at hc
    | x :: rest =>
      simp only [chunksOfAux, List.mem_cons] at hc
      rcases hc with hc | hc
      · subst hc
        simp
      · exact ih _ c hc

theorem chunksOf_mem_length (s c : List Char) (hc : c ∈ chunksOf s) : c.length ≤ 5000 :=
  chunksOfAux_mem_length s.length s c hc

theorem messagesGroups_length (msgs : List Message) :
    (messagesGroups msgs).length =
      (msgs.map fun m => (m.content.length + 4999) / 5000).sum := by
  induction msgs with
  | nil => simp [messagesGroups]
  | cons m t ih =>
    simp only [messagesGroups, List.map_cons, List.flatten_cons, List.length_append,
      List.map_cons, List.sum_cons, chunksOf_length] at *
    omega

/-- The claim-C2 scenario: two messages of 6000 and 3000 characters. -/
def msgs6k3k : List Message :=
  [formatMsg userRole (List.replicate 6000 'a'), formatMsg userRole (List.replicate 3000 'b')]

/-- C2 counterexample: for two messages of 6000 and 3000 characters, the code
issues 3 summarization calls (one per per-message chunk), not
`ceil(L / 5000) = ceil(9000 / 5000) = 2` as the claim computes from the
concatenated length `L`. -/
theorem c2_chunk_count_counterexample :
    summarizeCallCount msgs6k3k ≠
      (((msgs6k3k.map fun m => m.content.length).sum) + 4999) / 5000 ∧
    summarizeCallCount msgs6k3k = 3 ∧
    (((msgs6k3k.map fun m => m.content.length).sum) + 4999) / 5000 = 2 := by
  have h1 : summarizeCallCount msgs6k3k = 3 := by
    simp only [summarizeCallCount, messagesGroups_length, msgs6k3k, formatMsg,
      List.map_cons, List.map_nil, List.sum_cons, List.sum_nil, List.length_replicate]
    norm_num
  have h2 : (((msgs6k3k.map fun m => m.content.length).sum) + 4999) / 5000 = 2 := by
    simp only [msgs6k3k, formatMsg, List.map_cons, List.map_nil, List.sum_cons,
      List.sum_nil, List.length_replicate]
    norm_num
  exact ⟨by omega, h1, h2⟩

/-- C2 (amended): with `respect_overflow = true`, `_summarize_messages` issues
exactly `sum over messages of ceil(len(content) / 5000)` summarization calls
(3 in the 6000/3000 scenario, not 2), and afterwards the Conversation State
consists of exactly one message. -/
theorem c2_summarization_per_message_coverage : ∀ (env : Env) (st : ExecState),
    summarizeCallCount st.messages =
      (st.messages.map fun m => (m.content.length + 4999) / 5000).sum ∧
    (summarizeMessages env st).messages.length = 1 := by
  intro env st
  exact ⟨messagesGroups_length st.messages, rfl⟩

/-- C10: the chunking step of `_summarize_messages` is a lossless partition
per message: the in-order concatenation of a message's chunks is exactly its
content, every chunk has at most 5000 characters, an empty content yields no
chunks, and the total number of summarization calls is the sum over messages
of `ceil(len(content) / 5000)`. -/
theorem c10_chunking_lossless_partition :
    (∀ content : List Char, (chunksOf content).flatten = content) ∧
    (∀ content c : List Char, c ∈ chunksOf content → c.length ≤ 5000) ∧
    chunksOf [] = [] ∧
    (∀ msgs : List Message,
      summarizeCallCount msgs = (msgs.map fun m => (m.content.length + 4999) / 5000).sum) := by
  exact ⟨chunksOf_flatten, chunksOf_mem_length, rfl, messagesGroups_length⟩

/-- Witness for C10 at a concrete one-character content. -/
theorem c10_chunking_lossless_partition_witness :
    (chunksOf ['a']).flatten = ['a'] ∧ (['a'] : List Char).length ≤ 5000 :=
  ⟨c10_chunking_lossless_partition.1 ['a'],
   c10_chunking_lossless_partition.2.1 ['a'] ['a'] (by decide)⟩

/-! ## Claims about the tool dispatcher -/

/-- C4: for every Action whose parsed tool name matches no registered tool
under either matching rule, `_use_tool` never raises (it is a total function
of its inputs): it returns the localized wrong-tool-name message formatted
with the requested name and the available tool names case-folded and joined
by ", ", and it invokes no tool — the result does not depend on the
tool-execution oracle at all. -/
theorem c4_unknown_tool_is_recoverable_text :
    ∀ (env : Env) (a : AgentAction) (tc : ToolCalling),
      env.toolParse a.text = Except.ok tc →
      toolNameMatches tc.toolName env.toolNames = false →
      useTool env a =
        env.errWrongToolName tc.toolName
          (List.intercalate commaSep (env.toolNames.map casefold)) ∧
      ∀ g, useTool { env with toolUse := g } a = useTool env a := by
  intro env a tc hp hm
  constructor
  · simp [useTool, hp, hm]
  · intro g
    simp [useTool, hp, hm]

/-- Environment with one registered tool `Calculator` and a tool-usage parser
that requests the unregistered name `calc_tool`. -/
def envC4 : Env :=
  { baseEnv with
    toolParse := fun _ => Except.ok ⟨"calc_tool".data⟩,
    toolNames := ["Calculator".data] }

/-- The action value used by the concrete dispatcher scenarios. -/
def actPlain : AgentAction := ⟨['a'], [], [], none⟩

/-- Witness for C4: dispatching unregistered `calc_tool` against registered
`Calculator` yields the wrong-tool-name message enumerating `calculator`. -/
theorem c4_unknown_tool_is_recoverable_text_witness :
    useTool envC4 actPlain =
      envC4.errWrongToolName "calc_tool".data
        (List.intercalate commaSep (envC4.toolNames.map casefold)) :=
  (c4_unknown_tool_is_recoverable_text envC4 actPlain ⟨"calc_tool".data⟩ rfl (by decide)).1

/-- Modelled from the spec: claim C5's matching rule read literally — the
names are equal case-insensitively after trimming, or the requested name with
underscores replaced by spaces equals a registered name case-insensitively
(the claim mentions no trimming in the second rule). -/
def claimToolNameMatches (requested : List Char) (names : List (List Char)) : Bool :=
  decide (strip (casefold requested) ∈ names.map fun n => strip (casefold n)) ||
  decide (replaceUnderscores (casefold requested) ∈ names.map casefold)

/-- C5 counterexample: for a registered name carrying surrounding whitespace
(`" x"`) and the requested name `"_x"`, the claim's literal second rule
matches (underscore-replaced `" x"` equals case-folded `" x"`), but the code
compares against the TRIMMED registered name (`"x"`) and does not match. -/
theorem c5_trimming_counterexample :
    claimToolNameMatches "_x".data [" x".data] = true ∧
    toolNameMatches "_x".data [" x".data] = false := by
  decide

/-- C5 (amended): tool-name resolution matches a requested name against a
registered name iff they are equal case-insensitively after trimming, or the
requested name with underscores replaced by spaces equals the case-folded
TRIMMED registered name; `"Web Search"` is matched by `"web_search"`,
`"WEB SEARCH"` and `"web search"`; and a matched request invokes the tool
rather than returning the wrong-tool-name message. -/
theorem c5_tool_name_matching :
    (∀ (requested : List Char) (names : List (List Char)),
      toolNameMatches requested names = true ↔
        ((∃ n ∈ names, strip (casefold requested) = strip (casefold n)) ∨
         (∃ n ∈ names, replaceUnderscores (casefold requested) = strip (casefold n)))) ∧
    toolNameMatches "web_search".data ["Web Search".data] = true ∧
    toolNameMatches "WEB SEARCH".data ["Web Search".data] = true ∧
    toolNameMatches "web search".data ["Web Search".data] = true ∧
    (∀ (env : Env) (a : AgentAction) (tc : ToolCalling),
      env.toolParse a.text = Except.ok tc →
      toolNameMatches tc.toolName env.toolNames = true →
      useTool env a = env.toolUse tc a.text) := by
  refine ⟨?_, by decide, by decide, by decide, ?_⟩
  · intro requested names
    simp only [toolNameMatches, Bool.or_eq_true, decide_eq_true_eq, List.mem_map]
    constructor
    · rintro (⟨n, hn, he⟩ | ⟨n, hn, he⟩)
      · exact Or.inl ⟨n, hn, he.symm⟩
      · exact Or.inr ⟨n, hn, he.symm⟩
    · rintro (⟨n, hn, he⟩ | ⟨n, hn, he⟩)
      · exact Or.inl ⟨n, hn, he.symm⟩
      · exact Or.inr ⟨n, hn, he.symm⟩
  · intro env a tc hp hm
    simp [useTool, hp, hm]

/-- Environment with registered `Web Search` and a tool-usage parser that
requests `web_search`. -/
def envC5 : Env :=
  { baseEnv with
    toolParse := fun _ => Except.ok ⟨"web_search".data⟩,
    toolNames := ["Web Search".data] }

/-- Witness for C5: the matched request `web_search` invokes the registered
tool `Web Search`. -/
theorem c5_tool_name_matching_witness :
    useTool envC5 actPlain = envC5.toolUse ⟨"web_search".data⟩ actPlain.text :=
  c5_tool_name_matching.2.2.2.2 envC5 actPlain ⟨"web_search".data⟩ rfl (by decide)

/-! ## Claims about the loop's mutation of a dispatched Action -/

/-- Environment whose tool-usage parser requests the registered tool `t` and
whose tool returns `r`; no step-callback is configured. -/
def envC8 : Env :=
  { baseEnv with
    toolParse := fun _ => Except.ok ⟨['t']⟩,
    toolNames := [['t']],
    toolUse := fun _ _ => ['r'] }

/-- C8 counterexample: with no step-callback configured, the loop dispatches
the action and appends the Observation suffix to its text, but never sets its
`result` field — the claim's "both mutations occur for every dispatched
Action" fails. -/
theorem c8_result_only_with_callback_counterexample :
    useTool envC8 actPlain = ['r'] ∧
    processAction envC8 initState actPlain =
      StepRes.next
        (some (FormattedAnswer.action ⟨'a' :: (obsMarkerSep ++ ['r']), [], [], none⟩))
        { initState with
            messages := [formatMsg assistantRole ('a' :: (obsMarkerSep ++ ['r']))] } ∧
    (none : Option (List Char)) ≠ some (useTool envC8 actPlain) := by
  refine ⟨rfl, rfl, by simp⟩

/-- C8 (amended): after tool dispatch the loop always appends the
`"\nObservation: "` suffix carrying the tool result to the action's text, and
it sets the action's `result` field to the tool result exactly when a
step-callback is configured (otherwise the field is left unchanged). -/
theorem c8_observation_always_result_conditional :
    ∀ (env : Env) (a : AgentAction) (res : List Char),
      (attachObservation env a res).text = a.text ++ obsMarkerSep ++ res ∧
      (attachObservation env a res).result =
        (if env.hasStepCallback then some res else a.result) := by
  intro env a res
  refine ⟨?_, ?_⟩ <;> cases h : env.hasStepCallback <;> simp [attachObservation, h]

/-! ## Claim about the training-record handler -/

/-- Training environment for the C9 failing input: a loaded record for agent
`a` keyed by iteration `0`, a crew whose `_train_iteration` is the STRING
`"0"` instead of an int, and no pending human input (the revision round). -/
def trainEnvC9 : TrainEnv :=
  { loaded := [(['a'], [0])], crewPresent := true,
    trainIteration := some (PyKey.kstr ['0']), askForHumanInput := false,
    agentId := ['a'] }

/-- C9 (code bug): in the revision round, a wrongly-typed `_train_iteration`
is used to subscript the per-iteration dict with no isinstance guard, so the
handler raises KeyError instead of logging; a missing attribute, by contrast,
is logged and returns normally, as the claim states for both cases. -/
theorem c9_wrong_type_iteration_raises :
    handleCrewTrainingOutput trainEnvC9 none = Except.error keyErrorMsg ∧
    handleCrewTrainingOutput { trainEnvC9 with trainIteration := none } none =
      Except.ok [TrainEvent.logError] :=
  ⟨rfl, rfl⟩

/-! ## Claim C1: the recovery re-entry's return value is discarded -/

/-- Environment for the C1 failing input: the first model call returns text
the parser rejects with a generic error; every later call returns text that
parses to `AgentFinish(output="4")`. -/
def envC1 : Env :=
  { baseEnv with
    llmAnswer := fun n => if n = 0 then Except.ok ['b'] else Except.ok ['g'],
    parse := fun s =>
      if s = ['g'] then Except.ok (FormattedAnswer.finish ⟨['4'], ['g']⟩)
      else Except.error ['e'] }

/-- C1 (code bug): on a run whose first turn raises a generic parser error,
the handler appends the error text and re-enters the loop, and the re-entered
loop does produce an `AgentFinish` — but `_invoke_loop` discards the
recursive call's return value and falls through to `return formatted_answer`,
returning the stale in-progress answer (`None` here), not a Finish. -/
theorem c1_recovery_return_value_discarded :
    retValue (invokeLoop envC1 3 none initState) = some none ∧
    retValue (invokeLoop envC1 2 none
        (appendParserError { initState with iterations := 1, calls := 1, turns := 1 } ['e'])) =
      some (some (FormattedAnswer.finish ⟨['4'], ['g']⟩)) :=
  ⟨rfl, rfl⟩

/-! ## Claim C6: overflow with `respect_context_window = false` is fatal -/

/-- C6: whenever context-overflow handling runs with the respect flag off,
`_handle_context_length` never returns normally — it raises `SystemExit` with
the operator-facing message — and when the loop's recovery path invokes it
after a context-limit model error, the abort propagates out of the loop
uncaught (`SystemExit` is not an `Exception`), so the invocation never
produces a Finish. -/
theorem c6_disrespected_overflow_aborts :
    (∀ (env : Env) (st : ExecState), env.respectContextWindow = false →
      handleContextLength env st = Except.error contextExitMessage) ∧
    (∀ (env : Env) (fuel : Nat) (fa : Option FormattedAnswer) (st : ExecState) (e : List Char),
      env.respectContextWindow = false →
      (fa = none ∨ ∃ a, fa = some (FormattedAnswer.action a)) →
      gateAllows env st = true →
      env.llmAnswer st.calls = Except.error e →
      env.isContextLimit e = true →
      invokeLoop env (fuel + 1) fa st =
        LoopRes.exit contextExitMessage
          { st with turns := st.turns + 1, calls := st.calls + 1 }) := by
  constructor
  · intro env st h
    simp [handleContextLength, h]
  · intro env fuel fa st e hr hfa hg hllm hctx
    rcases hfa with rfl | ⟨a, rfl⟩ <;>
      simp [invokeLoop, hg, oneTurn, afterTurn, hllm, hctx, handleContextLength, hr]

/-- Environment for the C6 witness: every model call raises a
context-limit-signature error and the respect flag is off. -/
def envC6 : Env :=
  { baseEnv with
    llmAnswer := fun _ => Except.error ['c'],
    isContextLimit := fun _ => true }

/-- Witness for C6 at the initial state. -/
theorem c6_disrespected_overflow_aborts_witness :
    handleContextLength envC6 initState = Except.error contextExitMessage ∧
    invokeLoop envC6 1 none initState =
      LoopRes.exit contextExitMessage { initState with turns := 1, calls := 1 } :=
  ⟨c6_disrespected_overflow_aborts.1 envC6 initState rfl,
   c6_disrespected_overflow_aborts.2 envC6 0 none initState ['c'] rfl (Or.inl rfl) rfl rfl rfl⟩

/-! ## Flag-monotonicity lemmas for claim C3 -/

theorem retKeep_state (fa : Option FormattedAnswer) (r : LoopRes) :
    loopState (retKeep fa r) = loopState r := by
  cases r <;> rfl

theorem processAction_flag : ∀ (env : Env) (st : ExecState) (a : AgentAction),
    st.haveForcedAnswer = true →
    (stepState (processAction env st a)).haveForcedAnswer = true := by
  intro env st a h
  simp only [processAction, h, if_true]
  split <;> simp [stepState, h]

theorem oneTurn_flag : ∀ (env : Env) (st : ExecState),
    st.haveForcedAnswer = true →
    (stepState (oneTurn env st)).haveForcedAnswer = true := by
  intro env st h
  simp only [oneTurn]
  split
  · simp [stepState, h]
  · split
    · simp [stepState, h]
    · simp [stepState, h]
    · exact processAction_flag _ _ _ (by simp [h])

theorem handleContextLength_flag : ∀ (env : Env) (st st2 : ExecState),
    handleContextLength env st = Except.ok st2 →
    st2.haveForcedAnswer = st.haveForcedAnswer := by
  intro env st st2 h
  simp only [handleContextLength] at h
  split at h
  · cases h
    rfl
  · cases h

theorem afterTurn_flag (env : Env) (recurse : Option FormattedAnswer → ExecState → LoopRes)
    (fa : Option FormattedAnswer) (step : StepRes)
    (hrec : ∀ fa1 st1, st1.haveForcedAnswer = true →
      (loopState (recurse fa1 st1)).haveForcedAnswer = true)
    (hstep : (stepState step).haveForcedAnswer = true) :
    (loopState (afterTurn env recurse fa step)).haveForcedAnswer = true := by
  cases step with
  | finished f st1 => simpa [afterTurn, loopState, stepState] using hstep
  | next fa1 st1 => exact hrec fa1 st1 (by simpa [stepState] using hstep)
  | parserErr e st1 =>
    simp only [afterTurn, retKeep_state]
    exact hrec fa (appendParserError st1 e) (by simpa [appendParserError, stepState] using hstep)
  | otherErr e st1 =>
    simp only [afterTurn]
    split
    · cases hh : handleContextLength env st1 with
      | error m => simpa [loopState, stepState] using hstep
      | ok st2 =>
        rw [retKeep_state]
        refine hrec fa st2 ?_
        rw [handleContextLength_flag env st1 st2 hh]
        simpa [stepState] using hstep
    · simpa [loopState, stepState] using hstep

theorem invokeLoop_flag : ∀ (fuel : Nat) (env : Env) (fa : Option FormattedAnswer)
    (st : ExecState), st.haveForcedAnswer = true →
    (loopState (invokeLoop env fuel fa st)).haveForcedAnswer = true := by
  intro fuel
  induction fuel with
  | zero =>
    intro env fa st h
    simpa [invokeLoop, loopState] using h
  | succ n ih =>
    intro env fa st h
    simp only [invokeLoop]
    split
    · simpa [loopState] using h
    · split
      · exact afterTurn_flag env (invokeLoop env n) fa
          (oneTurn env { st with turns := st.turns + 1 })
          (fun fa1 st1 h1 => ih env fa1 st1 h1)
          (oneTurn_flag env { st with turns := st.turns + 1 } (by simpa using h))
      · exact ih env fa { st with turns := st.turns + 1 } (by simpa using h)

/-! ## Claim C3: the forced-answer flag fires at most once -/

/-- C3: over every invocation chain of the loop, `have_forced_answer` never
transitions back from true (so false-to-true happens at most once, across
recursive recovery re-entries included); when the forced-answer predicate
fires while the flag is already true, the loop returns a terminal Finish
whose text is the action's accumulated text and whose output wraps it in the
localized forced-answer error, with no second notice appended; and the notice
is appended (flag set) exactly on the first firing. -/
theorem c3_forced_answer_at_most_once :
    (∀ (env : Env) (fuel : Nat) (fa : Option FormattedAnswer) (st : ExecState),
      st.haveForcedAnswer = true →
      (loopState (invokeLoop env fuel fa st)).haveForcedAnswer = true) ∧
    (∀ (env : Env) (st : ExecState) (a : AgentAction),
      env.shouldForce st.iterations = true → st.haveForcedAnswer = true →
      processAction env st a =
        StepRes.finished
          ⟨env.errForceFinalAnswerError (attachObservation env a (useTool env a)).text,
           (attachObservation env a (useTool env a)).text⟩ st) ∧
    (∀ (env : Env) (st : ExecState) (a : AgentAction),
      env.shouldForce st.iterations = true → st.haveForcedAnswer = false →
      processAction env st a =
        StepRes.next
          (some (FormattedAnswer.action (withNotice env (attachObservation env a (useTool env a)))))
          { st with haveForcedAnswer := true,
                    messages := st.messages ++
                      [formatMsg assistantRole
                        (withNotice env (attachObservation env a (useTool env a))).text] }) := by
  refine ⟨?_, ?_, ?_⟩
  · exact fun env fuel fa st h => invokeLoop_flag fuel env fa st h
  · intro env st a h1 h2
    simp [processAction, h1, h2]
  · intro env st a h1 h2
    simp [processAction, h1, h2]

/-- Environment for the C3 witness: the forced-answer predicate always
fires. -/
def envC3 : Env := { baseEnv with shouldForce := fun _ => true }

/-- State whose forced-answer flag is already set. -/
def stFlagged : ExecState := { initState with haveForcedAnswer := true }

/-- Witness for C3 at concrete inputs: the flag stays true through a run, a
second force-trigger is terminal, and a first force-trigger appends the
notice and sets the flag. -/
theorem c3_forced_answer_at_most_once_witness :
    (loopState (invokeLoop envC3 2 none stFlagged)).haveForcedAnswer = true ∧
    processAction envC3 stFlagged actPlain =
      StepRes.finished
        ⟨envC3.errForceFinalAnswerError (attachObservation envC3 actPlain (useTool envC3 actPlain)).text,
         (attachObservation envC3 actPlain (useTool envC3 actPlain)).text⟩ stFlagged ∧
    processAction envC3 initState actPlain =
      StepRes.next
        (some (FormattedAnswer.action (withNotice envC3 (attachObservation envC3 actPlain (useTool envC3 actPlain)))))
        { initState with haveForcedAnswer := true,
                         messages := initState.messages ++
                           [formatMsg assistantRole
                             (withNotice envC3 (attachObservation envC3 actPlain (useTool envC3 actPlain))).text] } :=
  ⟨c3_forced_answer_at_most_once.1 envC3 2 none stFlagged rfl,
   c3_forced_answer_at_most_once.2.1 envC3 stFlagged actPlain rfl rfl,
   c3_forced_answer_at_most_once.2.2 envC3 initState actPlain rfl rfl⟩

/-! ## Claim C7: the conversation grows only by appends, except summarization -/

theorem processAction_messages : ∀ (env : Env) (st : ExecState) (a : AgentAction),
    ∃ l, (stepState (processAction env st a)).messages = st.messages ++ l := by
  intro env st a
  simp only [processAction]
  split
  · split
    · exact ⟨[], by simp [stepState]⟩
    · exact ⟨[formatMsg assistantRole (withNotice env (attachObservation env a (useTool env a))).text],
        by simp [stepState]⟩
  · exact ⟨[formatMsg assistantRole (attachObservation env a (useTool env a)).text],
      by simp [stepState]⟩

theorem oneTurn_messages : ∀ (env : Env) (st : ExecState),
    ∃ l, (stepState (oneTurn env st)).messages = st.messages ++ l := by
  intro env st
  cases hl : env.llmAnswer st.calls with
  | error e => exact ⟨[], by simp [oneTurn, hl, stepState]⟩
  | ok answer0 =>
    cases hp : env.parse (repairAnswer env answer0) with
    | error e => exact ⟨[], by simp [oneTurn, hl, hp, stepState]⟩
    | ok fa =>
      cases fa with
      | finish f => exact ⟨[], by simp [oneTurn, hl, hp, stepState]⟩
      | action a =>
        obtain ⟨l, hm⟩ := processAction_messages env
          { st with calls := st.calls + 1, iterations := st.iterations + 1 } a
        exact ⟨l, by simpa [oneTurn, hl, hp] using hm⟩

/-- C7: across the operations of one invocation, the Conversation State only
grows by appending — prompt seeding, every loop turn, the parser-error
recovery append and the feedback append all extend the previous message list
as a prefix — with the single exception of Context-Overflow Recovery, whose
bulk step replaces the entire history by exactly one summarizing message. -/
theorem c7_conversation_append_only :
    (∀ (env : Env) (inp : Inputs) (st : ExecState),
      ∃ l, (seedMessages env inp st).messages = st.messages ++ l) ∧
    (∀ (env : Env) (st : ExecState),
      ∃ l, (stepState (oneTurn env st)).messages = st.messages ++ l) ∧
    (∀ (st : ExecState) (e : List Char),
      ∃ l, (appendParserError st e).messages = st.messages ++ l) ∧
    (∀ (st : ExecState) (fb : List Char),
      ∃ l, (appendFeedback st fb).messages = st.messages ++ l) ∧
    (∀ (env : Env) (st : ExecState), (summarizeMessages env st).messages.length = 1) := by
  refine ⟨?_, oneTurn_messages, ?_, ?_, ?_⟩
  · intro env inp st
    cases hs : env.promptSystem with
    | none => exact ⟨[formatMsg userRole (formatPrompt env.promptPrompt inp)], by simp [seedMessages, hs]⟩
    | some sys =>
      exact ⟨[formatMsg sysRole (formatPrompt sys inp),
              formatMsg userRole (formatPrompt env.promptUser inp)], by simp [seedMessages, hs]⟩
  · intro st e
    exact ⟨[formatMsg assistantRole e], rfl⟩
  · intro st fb
    exact ⟨[formatMsg userRole ("Feedback: ".data ++ fb)], rfl⟩
  · intro env st
    rfl

end Crew
